import Mathlib

/-!
Shallow embedding of `gan.py` (1-D GAN with standard and extragradient
training loops), for checking the natural-language specification against
the code.

Modelling conventions:
* machine floats become exact rationals `ℚ`;
* the random sources (`np.random.choice`, `np.random.normal`,
  `np.random.random`) become oracle streams passed as function arguments;
* the transcendental primitives (`log`, `exp`, `sqrt`) of the numerical
  runtime become abstract function parameters `lg ex sq : ℚ → ℚ`;
* TensorFlow session state (the values of the trainable variables of the
  three scopes, plus the Adam slot variables of each optimizer) becomes an
  explicit `TrainState` record, and every `session.run` becomes a state
  transformer.  A crucial point of TF-1 dataflow semantics is embedded
  below: fetching a tensor in one `session.run` and fetching it again in a
  later `session.run` re-evaluates it from the current variable values;
  nothing is cached across runs.
-/

/- ---------------------------------------------------------------- -/
/- DataDistribution (gan.py lines 29-41)                            -/
/- ---------------------------------------------------------------- -/

/-- The four fixed means of the target mixture (`self.mus = [-6,-3,3,6]`). -/
def dataMus : List ℚ := [-6, -3, 3, 6]

/-- The fixed noise scale (`self.sigma = 0.01`). -/
def dataSigma : ℚ := 1 / 100

/-- One draw of `np.random.normal(mu, sigma)`, modelled as
`mu + sigma * gauss i` where `gauss` is an oracle stream of
standard-normal draws. -/
def normalDraw (gauss : ℕ → ℚ) (mu s : ℚ) (i : ℕ) : ℚ := mu + s * gauss i

/-- The model of `DataDistribution.sample(N)` (lines 34-38): pick a mean per draw
(`choice` is the oracle behind `np.random.choice(self.mus, N)`), add
noise of scale `dataSigma`, then sort ascending (`samples.sort()`,
modelled by stable insertion sort). -/
def dataSample (choice gauss : ℕ → ℚ) (N : ℕ) : List ℚ :=
  List.insertionSort (· ≤ ·)
    ((List.range N).map (fun i => normalDraw gauss (choice i) dataSigma i))

/- ---------------------------------------------------------------- -/
/- Losses (gan.py lines 179-180)                                    -/
/- ---------------------------------------------------------------- -/

/-- The model of `tf.reduce_mean` over a batch column. -/
def meanQ (l : List ℚ) : ℚ := l.sum / l.length

/-- The model of `self.loss_d = tf.reduce_mean(-tf.log(self.D1) - tf.log(1 - self.D2))`
(line 179), with `lg` the runtime's elementwise `log` and `d1`, `d2` the
two batches of discriminator scores. -/
def loss_d (lg : ℚ → ℚ) (d1 d2 : List ℚ) : ℚ :=
  meanQ (List.zipWith (fun a b => -lg a - lg (1 - b)) d1 d2)

/-- The model of `self.loss_g = tf.reduce_mean(-tf.log(self.D2))` (line 180). -/
def loss_g (lg : ℚ → ℚ) (d2 : List ℚ) : ℚ :=
  meanQ (d2.map (fun b => -lg b))

/-- The discriminator loss as worded by the spec: the batch mean of
`-(log(D1) + log(1 - D2))`. -/
def loss_d_specform (lg : ℚ → ℚ) (d1 d2 : List ℚ) : ℚ :=
  meanQ (List.zipWith (fun a b => -(lg a + lg (1 - b))) d1 d2)

/-- The generator loss as worded by the spec: the batch mean of `-log(D2)`. -/
def loss_g_specform (lg : ℚ → ℚ) (d2 : List ℚ) : ℚ :=
  meanQ (d2.map (fun b => -(lg b)))

/- ---------------------------------------------------------------- -/
/- Minibatch discrimination layer (gan.py lines 88-94)              -/
/- ---------------------------------------------------------------- -/

/-- Dot product of two rational vectors. -/
def dotQ (a b : List ℚ) : ℚ := (List.zipWith (· * ·) a b).sum

/-- One row of `linear(input, ...)` (lines 54-62): `x ↦ xᵀW + b`, with the
weight matrix given by its list of columns `w` and bias `bias`. -/
def linearRow (w : List (List ℚ)) (bias : List ℚ) (x : List ℚ) : List ℚ :=
  List.zipWith (fun c bj => dotQ x c + bj) w bias

/-- Kernel vector number `k` of a projected row `y` of length
`numKernels * Dk`: the reshape `tf.reshape(x, (-1, num_kernels,
kernel_dim))` (line 90) read off row-major. -/
def kernelRow (Dk : ℕ) (y : List ℚ) (k : ℕ) : List ℚ :=
  (List.range Dk).map (fun d => y.getD (k * Dk + d) 0)

/-- L1 distance summed over the kernel dimension:
`tf.reduce_sum(tf.abs(diffs), 2)` (lines 91-92). -/
def l1dist (u v : List ℚ) : ℚ := (List.zipWith (fun a b => |a - b|) u v).sum

/-- Negative-exponential closeness score of examples `yi`, `yj` at kernel
`k`: one entry of `tf.exp(-abs_diffs)` (line 93), with `ex` the runtime's
`exp`. -/
def closeness (ex : ℚ → ℚ) (Dk : ℕ) (yi yj : List ℚ) (k : ℕ) : ℚ :=
  ex (-(l1dist (kernelRow Dk yi k) (kernelRow Dk yj k)))

/-- The `num_kernels` extra features of one example: for each kernel, the
sum of closeness scores against every example of the batch, itself
included (`tf.reduce_sum(tf.exp(-abs_diffs), 2)`, line 93). -/
def mbFeatRow (ex : ℚ → ℚ) (K Dk : ℕ) (yi : List ℚ) (acts : List (List ℚ)) : List ℚ :=
  (List.range K).map (fun k => (acts.map (fun yj => closeness ex Dk yi yj k)).sum)

/-- The whole `minibatch(input, input_dim, num_kernels, kernel_dim)` layer
(lines 88-94): project every row through the linear layer, compute the
batch-relative features, and concatenate them to the original rows
(`tf.concat(1, [input, minibatch_features])`, line 94). -/
def minibatchLayer (ex : ℚ → ℚ) (w : List (List ℚ)) (bias : List ℚ)
    (K Dk : ℕ) (batch : List (List ℚ)) : List (List ℚ) :=
  batch.map (fun row =>
    row ++ mbFeatRow ex K Dk (linearRow w bias row) (batch.map (linearRow w bias)))

/- ---------------------------------------------------------------- -/
/- The Adam optimizer (tf.train.AdamOptimizer, beta1 = 0.5)         -/
/- ---------------------------------------------------------------- -/

/-- Slot state kept per optimizer: step counter and the first/second
moment accumulators (one slot per parameter). -/
structure AdamState where
  t : ℕ
  m : List ℚ
  v : List ℚ
deriving DecidableEq

/-- One `tf.train.AdamOptimizer` update of a parameter list `θ` with
gradient list `g`, with `sq` the runtime's square root:
`lr_t = lr·√(1-β₂ᵗ)/(1-β₁ᵗ)`, `m ← β₁m+(1-β₁)g`, `v ← β₂v+(1-β₂)g²`,
`θ ← θ - lr_t·m/(√v+ε)`. -/
def adamUpdate (sq : ℚ → ℚ) (lr b1 b2 eps : ℚ) (s : AdamState) (θ g : List ℚ) :
    AdamState × List ℚ :=
  let t := s.t + 1
  let m := List.zipWith (fun mi gi => b1 * mi + (1 - b1) * gi) s.m g
  let v := List.zipWith (fun vi gi => b2 * vi + (1 - b2) * gi * gi) s.v g
  let lrt := lr * sq (1 - b2 ^ t) / (1 - b1 ^ t)
  (⟨t, m, v⟩, List.zipWith (fun θi p => θi - lrt * p.1 / (sq p.2 + eps)) θ (m.zip v))

/-- Learning rate of the four adversarial optimizers (lines 186-190: all
built with `1e-4`). -/
def advLr : ℚ := 1 / 10000

/-- The first-moment decay `beta1=0.5` (lines 100 and 118). -/
def advB1 : ℚ := 1 / 2

/-- TensorFlow's default `beta2`. -/
def advB2 : ℚ := 999 / 1000

/-- TensorFlow's default `epsilon`. -/
def advEps : ℚ := 1 / 100000000

/-- One update by any of the adversarial Adam optimizers. -/
def adamAdv (sq : ℚ → ℚ) (s : AdamState) (θ g : List ℚ) : AdamState × List ℚ :=
  adamUpdate sq advLr advB1 advB2 advEps s θ g

/- ---------------------------------------------------------------- -/
/- Session state and the parameter-level operations of GAN          -/
/- ---------------------------------------------------------------- -/

/-- The mutable session state relevant to training: the trainable
variables of the three scopes (`D_pre`, `Disc`, `Gen`, lines 182-184) and
the Adam slots of `opt_d`, `opt_g` (lines 186-187, used via
compute/apply) and of `opt_d_min`, `opt_g_min` (lines 189-190, the
combined `minimize` ops of the standard loop). -/
structure TrainState where
  preParams : List ℚ
  dParams : List ℚ
  gParams : List ℚ
  aD : AdamState
  aG : AdamState
  aDm : AdamState
  aGm : AdamState
deriving DecidableEq

/-- Fetch of the discriminator variables
(`weightsD = session.run(self.d_params)`, line 260). -/
def snapshotD (st : TrainState) : List ℚ := st.dParams

/-- Fetch of the generator variables (line 261). -/
def snapshotG (st : TrainState) : List ℚ := st.gParams

/-- Running the list of per-variable assign ops
`[params[i].assign(placeholder[i]) for i in range(len(params))]` with the
value list `src` fed through the placeholders (lines 198-204 and 273-274):
position `i` of the variable list is overwritten with `src[i]`. -/
def copyByPos (dst src : List ℚ) : List ℚ :=
  (List.range dst.length).foldl (fun acc i => acc.set i (src.getD i 0)) dst

/-- The model of `session.run(self.assign_d, ...)` and `session.run(self.assign_g, ...)`
(lines 273-274): write the two snapshots back into the scope variables.
Only the scope variables are written; no optimizer slot is touched. -/
def restoreParams (st : TrainState) (wD wG : List ℚ) : TrainState :=
  { st with dParams := copyByPos st.dParams wD, gParams := copyByPos st.gParams wG }

/-- The one-time pretraining-weight transfer (lines 246-250):
`weightsD = session.run(self.d_pre_params)` followed by
`for i, v in enumerate(self.d_params): session.run(v.assign(weightsD[i]))`. -/
def initCopy (st : TrainState) : TrainState :=
  { st with dParams := copyByPos st.dParams st.preParams }

/-- The gradient values fetched by `GAN.compute_gradients` (lines
209-216): `session.run([self.grad_d, self.grad_g], {x, z})` evaluates the
symbolic gradient tensors at the CURRENT variable values and returns the
numbers.  The method discards them (it returns `None`), so the session
state is unchanged; this pair is what a caller could have seen. -/
def computeGradientsVals (gD : List ℚ → List ℚ → List ℚ → List ℚ → List ℚ)
    (gG : List ℚ → List ℚ → List ℚ → List ℚ)
    (st : TrainState) (x z : List ℚ) : List ℚ × List ℚ :=
  (gD st.dParams st.gParams x z, gG st.dParams st.gParams z)

/-- Apply the given gradient value lists through `opt_d` / `opt_g` to the
current parameters (the effect of running `apply_grad_d` and
`apply_grad_g` once the gradient tensors have evaluated to `gdv`, `ggv`). -/
def applyWith (sq : ℚ → ℚ) (st : TrainState) (gdv ggv : List ℚ) : TrainState :=
  let pd := adamAdv sq st.aD st.dParams gdv
  let pg := adamAdv sq st.aG st.gParams ggv
  { st with dParams := pd.2, aD := pd.1, gParams := pg.2, aG := pg.1 }

/-- The model of `GAN.apply_gradients` (lines 221-226):
`session.run([loss_d, loss_g, apply_grad_d, apply_grad_g], {x, z})`.
`apply_grad_d = opt_d.apply_gradients(self.grad_d)` (line 195) has the
symbolic gradient tensors as inputs, so this run RE-EVALUATES the
gradients at the current variable values and then applies them; no value
from an earlier `session.run` is carried over. -/
def apply_gradients (sq : ℚ → ℚ) (gD : List ℚ → List ℚ → List ℚ → List ℚ → List ℚ)
    (gG : List ℚ → List ℚ → List ℚ → List ℚ)
    (st : TrainState) (x z : List ℚ) : TrainState :=
  applyWith sq st (gD st.dParams st.gParams x z) (gG st.dParams st.gParams z)

/-- The model of `session.run([self.loss_d, self.opt_d_min], {x, z})` (lines 286-289):
the combined compute-and-apply `minimize` op of the discriminator, built
with `var_list=self.d_params`, so only the `Disc` variables and the
`opt_d_min` slots change. -/
def minimizeD (sq : ℚ → ℚ) (gD : List ℚ → List ℚ → List ℚ → List ℚ → List ℚ)
    (st : TrainState) (x z : List ℚ) : TrainState :=
  let p := adamAdv sq st.aDm st.dParams (gD st.dParams st.gParams x z)
  { st with dParams := p.2, aDm := p.1 }

/-- The model of `session.run([self.loss_g, self.opt_g_min], {z})` (lines 292-295):
the combined compute-and-apply `minimize` op of the generator, built with
`var_list=self.g_params`. -/
def minimizeG (sq : ℚ → ℚ) (gG : List ℚ → List ℚ → List ℚ → List ℚ)
    (st : TrainState) (z : List ℚ) : TrainState :=
  let p := adamAdv sq st.aGm st.gParams (gG st.dParams st.gParams z)
  { st with gParams := p.2, aGm := p.1 }

/-- One iteration of the standard loop (lines 283-295): discriminator
combined update on a real batch `x` and noise batch `z`, then generator
combined update on a fresh noise batch `z2`. -/
def stdStep (sq : ℚ → ℚ) (gD : List ℚ → List ℚ → List ℚ → List ℚ → List ℚ)
    (gG : List ℚ → List ℚ → List ℚ → List ℚ)
    (st : TrainState) (x z z2 : List ℚ) : TrainState :=
  minimizeG sq gG (minimizeD sq gD st x z) (z2)

/-- The standard loop run for `n` steps, with per-step batch oracles
`xs`, `zs` (discriminator phase) and `zs2` (generator phase). -/
def stdLoop (sq : ℚ → ℚ) (gD : List ℚ → List ℚ → List ℚ → List ℚ → List ℚ)
    (gG : List ℚ → List ℚ → List ℚ → List ℚ)
    (st0 : TrainState) (xs zs zs2 : ℕ → List ℚ) : ℕ → TrainState
  | 0 => st0
  | n + 1 => stdStep sq gD gG (stdLoop sq gD gG st0 xs zs zs2 n) (xs n) (zs n) (zs2 n)

/-- One iteration of the extragradient loop (lines 252-277), as the code
actually executes it: snapshot, trial compute+apply on batch `(x1, z1)`,
a second gradient fetch on batch `(x2, z2)` whose values are discarded,
restore of the snapshots, and a final `apply_gradients` call — which, by
TF-1 dataflow semantics, re-evaluates the gradients at the restored
variables rather than reusing the discarded fetch. -/
def egStep (sq : ℚ → ℚ) (gD : List ℚ → List ℚ → List ℚ → List ℚ → List ℚ)
    (gG : List ℚ → List ℚ → List ℚ → List ℚ)
    (st : TrainState) (x1 z1 x2 z2 : List ℚ) : TrainState :=
  let wD := snapshotD st
  let wG := snapshotG st
  let _g1 := computeGradientsVals gD gG st x1 z1
  let st1 := apply_gradients sq gD gG st x1 z1
  let _g2 := computeGradientsVals gD gG st1 x2 z2
  let st2 := restoreParams st1 wD wG
  apply_gradients sq gD gG st2 x2 z2

/-- One iteration of the extragradient loop as the specification words it
(steps 1-6): the gradients computed at the TRIAL parameters on the second
batch are the ones applied after the restore. -/
def egStepSpec (sq : ℚ → ℚ) (gD : List ℚ → List ℚ → List ℚ → List ℚ → List ℚ)
    (gG : List ℚ → List ℚ → List ℚ → List ℚ)
    (st : TrainState) (x1 z1 x2 z2 : List ℚ) : TrainState :=
  let wD := snapshotD st
  let wG := snapshotG st
  let st1 := apply_gradients sq gD gG st x1 z1
  let g2 := computeGradientsVals gD gG st1 x2 z2
  let st2 := restoreParams st1 wD wG
  applyWith sq st2 g2.1 g2.2

/- ---------------------------------------------------------------- -/
/- Event trace of GAN.train (lines 232-303)                         -/
/- ---------------------------------------------------------------- -/

/-- The observable operations of one `GAN.train` run, in program order. -/
inductive Ev where
  | pretrainUpd
  | copyPreToD
  | sampleReal
  | sampleNoise
  | snapD
  | snapG
  | computeGrads
  | updD
  | updG
  | restoreD
  | restoreG
  | logLine
  | frame
deriving DecidableEq

/-- Which events write the `Disc` trainable variables: the one-time
pretrain copy, an apply by a discriminator optimizer (`opt_d_min.minimize`
or `opt_d.apply_gradients`), and the snapshot restore assign. -/
def mutatesD : Ev → Bool
  | Ev.copyPreToD => true
  | Ev.updD => true
  | Ev.restoreD => true
  | _ => false

/-- The logging / frame-capture tail of each step (lines 278-281 and
299-303). -/
def logFrameTrace (step logEvery : ℕ) (anim : Bool) : List Ev :=
  (if step % logEvery == 0 then [Ev.logLine] else []) ++
    (if anim then [Ev.frame] else [])

/-- Event trace of one standard-loop iteration (lines 283-303). -/
def stdStepTrace (step logEvery : ℕ) (anim : Bool) : List Ev :=
  [Ev.sampleReal, Ev.sampleNoise, Ev.updD, Ev.sampleNoise, Ev.updG] ++
    logFrameTrace step logEvery anim

/-- Event trace of one extragradient-loop iteration (lines 253-281):
sampling, the two snapshots, the trial compute and apply (the apply runs
`apply_grad_d` then `apply_grad_g`), the second sampling and fetch, the
two restores, and the final apply. -/
def egStepTrace (step logEvery : ℕ) (anim : Bool) : List Ev :=
  [Ev.sampleReal, Ev.sampleNoise, Ev.snapD, Ev.snapG, Ev.computeGrads,
   Ev.updD, Ev.updG, Ev.sampleReal, Ev.sampleNoise, Ev.computeGrads,
   Ev.restoreD, Ev.restoreG, Ev.updD, Ev.updG] ++
    logFrameTrace step logEvery anim

/-- Event trace of one training iteration of either loop. -/
def stepTrace (eg : Bool) (step logEvery : ℕ) (anim : Bool) : List Ev :=
  if eg then egStepTrace step logEvery anim else stdStepTrace step logEvery anim

/-- Event trace of a whole `GAN.train` run: the pretraining iterations
(lines 239-245), the unconditional pretrain-to-Disc weight copy (lines
246-250), then the training iterations. -/
def trainTrace (eg : Bool) (numSteps numPretrain logEvery : ℕ) (anim : Bool) : List Ev :=
  List.replicate numPretrain Ev.pretrainUpd ++
    Ev.copyPreToD :: ((List.range numSteps).map (fun s => stepTrace eg s logEvery anim)).flatten

/-- The value `num_pretrain_steps = 0` (line 238, hard-coded). -/
def numPretrainSteps : ℕ := 0

/-- The trace of `GAN.train` as the code runs it, with the hard-coded
pretraining step count. -/
def trainTraceRun (eg : Bool) (numSteps logEvery : ℕ) (anim : Bool) : List Ev :=
  trainTrace eg numSteps numPretrainSteps logEvery anim

/- ---------------------------------------------------------------- -/
/- Decision-boundary sampling (GAN._samples, lines 310-327)         -/
/- ---------------------------------------------------------------- -/

/-- Numpy slice assignment `db[bs*i : bs*i + len(vals)] = vals`. -/
def setSlice (l : List ℚ) (a : ℕ) (vals : List ℚ) : List ℚ :=
  l.take a ++ vals ++ l.drop (a + vals.length)

/-- Grid chunk number `i` of size `bs`:
`xs[self.batch_size * i : self.batch_size * (i + 1)]`. -/
def chunk (xs : List ℚ) (bs i : ℕ) : List ℚ := (xs.drop (bs * i)).take bs

/-- The decision-boundary computation of `GAN._samples` (lines 320-327):
`db = np.zeros((num_points, 1))`, then for
`i in range(num_points // batch_size)` overwrite slice `i` with the
discriminator scores `Disc` of grid chunk `i`.  `xs` is the dense grid of
`n = num_points` points. -/
def dbCurve (Disc : List ℚ → List ℚ) (xs : List ℚ) (bs n : ℕ) : List ℚ :=
  (List.range (n / bs)).foldl
    (fun db i => setSlice db (bs * i) (Disc (chunk xs bs i)))
    (List.replicate n 0)

/- ---------------------------------------------------------------- -/
/- Concrete instances used to evaluate the definitions              -/
/- ---------------------------------------------------------------- -/

/-- A gradient oracle for the discriminator whose value is the current
discriminator parameters themselves (so that it distinguishes the trial
point from the original point). -/
def cGradD : List ℚ → List ℚ → List ℚ → List ℚ → List ℚ := fun θd _ _ _ => θd

/-- A generator gradient oracle returning the current generator params. -/
def cGradG : List ℚ → List ℚ → List ℚ → List ℚ := fun _ θg _ => θg

/-- A concrete stand-in for the square-root oracle. -/
def cSq : ℚ → ℚ := fun q => q

/-- Freshly created Adam slots for a single parameter. -/
def adam0 : AdamState := ⟨0, [0], [0]⟩

/-- A concrete session state with one parameter per scope. -/
def cSt : TrainState := ⟨[0], [1], [1], adam0, adam0, adam0, adam0⟩

/-- Concrete discriminator used to evaluate the sampling glue. -/
def cDisc : List ℚ → List ℚ := fun l => l.map (fun q => q + 1)

/-- A concrete 5-point grid. -/
def cXs : List ℚ := [10, 20, 30, 40, 50]

/-- Constant mean chooser (always the mode at 3). -/
def cChoice : ℕ → ℚ := fun _ => 3

/-- A concrete noise stream. -/
def cGauss : ℕ → ℚ := fun i => i

/-- A concrete stand-in for `exp` with the one property the claims use,
`cEx 0 = 1`. -/
def cEx : ℚ → ℚ := fun q => 1 + q

/-- Concrete minibatch projection: one input column, weight 1, bias 0. -/
def cW : List (List ℚ) := [[1]]

/-- Concrete minibatch projection bias. -/
def cBias : List ℚ := [0]

/-- A concrete two-example batch. -/
def cBatch : List (List ℚ) := [[2], [5]]

/-- The same batch in the opposite order. -/
def cBatch2 : List (List ℚ) := [[5], [2]]

/-- A concrete state whose pretrain and discriminator scopes both hold
two parameters. -/
def c9St : TrainState := ⟨[7, 8], [1, 2], [3], adam0, adam0, adam0, adam0⟩

/- ---------------------------------------------------------------- -/
/- Helper lemmas                                                    -/
/- ---------------------------------------------------------------- -/

lemma foldl_set_length (f : ℕ → ℚ) :
    ∀ (n : ℕ) (acc : List ℚ),
      ((List.range n).foldl (fun a i => a.set i (f i)) acc).length = acc.length := by
  intro n
  induction n with
  | zero => intro acc; rfl
  | succ k ih =>
    intro acc
    rw [List.range_succ, List.foldl_append]
    simp only [List.foldl_cons, List.foldl_nil, List.length_set]
    exact ih acc

lemma foldl_set_getElem? (f : ℕ → ℚ) :
    ∀ (n : ℕ) (acc : List ℚ) (j : ℕ),
      ((List.range n).foldl (fun a i => a.set i (f i)) acc)[j]? =
        if j < n ∧ j < acc.length then some (f j) else acc[j]? := by
  intro n
  induction n with
  | zero => intro acc j; simp
  | succ k ih =>
    intro acc j
    rw [List.range_succ, List.foldl_append]
    simp only [List.foldl_cons, List.foldl_nil]
    rw [List.getElem?_set]
    have hl : ((List.range k).foldl (fun a i => a.set i (f i)) acc).length = acc.length :=
      foldl_set_length f k acc
    rw [hl, ih]
    by_cases hkj : k = j
    · subst hkj
      rw [if_pos rfl]
      by_cases hka : k < acc.length
      · rw [if_pos hka, if_pos (⟨Nat.lt_succ_self k, hka⟩ : k < k + 1 ∧ k < acc.length)]
      · rw [if_neg hka, if_neg (fun h => hka h.2), List.getElem?_eq_none (by omega)]
    · rw [if_neg hkj]
      by_cases h1 : j < k ∧ j < acc.length
      · rw [if_pos h1, if_pos (⟨by omega, h1.2⟩ : j < k + 1 ∧ j < acc.length)]
      · have h2 : ¬(j < k + 1 ∧ j < acc.length) := fun h => h1 ⟨by omega, h.2⟩
        rw [if_neg h1, if_neg h2]

lemma copyByPos_eq (dst src : List ℚ) (h : dst.length = src.length) :
    copyByPos dst src = src := by
  apply List.ext_getElem?
  intro j
  unfold copyByPos
  rw [foldl_set_getElem?]
  by_cases hj : j < dst.length
  · have hj' : j < src.length := by omega
    rw [if_pos ⟨hj, hj⟩, List.getElem?_eq_getElem hj']
    congr 1
    rw [List.getD_eq_getElem?_getD, List.getElem?_eq_getElem hj']
    rfl
  · rw [if_neg (fun hc => hj hc.2), List.getElem?_eq_none (by omega),
      List.getElem?_eq_none (by omega : src.length ≤ j)]

/- ---------------------------------------------------------------- -/
/- Claims                                                           -/
/- ---------------------------------------------------------------- -/

/-- Claim C3: the discriminator loss is the batch mean of
`-(log(D1) + log(1 - D2))` and the generator loss the batch mean of
`-log(D2)`, where `d1`, `d2` are the score batches on real and generated
data: the loss tensors built on line 179-180 agree with the spec's
formulas for every `log` primitive and every pair of score batches. -/
theorem gan_c3 (lg : ℚ → ℚ) (d1 d2 : List ℚ) :
    loss_d lg d1 d2 = loss_d_specform lg d1 d2 ∧ loss_g lg d2 = loss_g_specform lg d2 := by
  refine ⟨?_, rfl⟩
  unfold loss_d loss_d_specform
  have hf : (fun a b => -lg a - lg (1 - b)) = (fun a b => -(lg a + lg (1 - b))) := by
    funext a b
    ring
  rw [hf]

/-- Claim C7: capturing the two parameter snapshots and immediately
running the restore assigns (with no update in between) is the identity
on the session state, hence on every parameter value. -/
theorem gan_c7 (st : TrainState) :
    restoreParams st (snapshotD st) (snapshotG st) = st := by
  unfold restoreParams snapshotD snapshotG
  rw [copyByPos_eq st.dParams st.dParams rfl, copyByPos_eq st.gParams st.gParams rfl]

/-- Claim C6: for every batch size `N`, `DataDistribution.sample` returns
exactly `N` values, the result is ascending-sorted, and it is a
permutation of the raw draws, each of which is one of the four means
`{-6,-3,3,6}` plus `0.01`-scaled noise from the normal oracle. -/
theorem gan_c6 (choice gauss : ℕ → ℚ) (N : ℕ) (hc : ∀ i < N, choice i ∈ dataMus) :
    (dataSample choice gauss N).length = N
    ∧ (dataSample choice gauss N).Sorted (· ≤ ·)
    ∧ (dataSample choice gauss N).Perm
        ((List.range N).map (fun i => normalDraw gauss (choice i) dataSigma i))
    ∧ ∀ y ∈ dataSample choice gauss N,
        ∃ i < N, choice i ∈ dataMus ∧ y = choice i + dataSigma * gauss i := by
  have hperm : (dataSample choice gauss N).Perm
      ((List.range N).map (fun i => normalDraw gauss (choice i) dataSigma i)) := by
    unfold dataSample
    exact List.perm_insertionSort _ _
  refine ⟨?_, ?_, hperm, ?_⟩
  · rw [hperm.length_eq, List.length_map, List.length_range]
  · unfold dataSample
    exact List.sorted_insertionSort _ _
  · intro y hy
    have hy' := hperm.mem_iff.mp hy
    rw [List.mem_map] at hy'
    obtain ⟨i, hi, rfl⟩ := hy'
    rw [List.mem_range] at hi
    exact ⟨i, hi, hc i hi, rfl⟩

/-- Witness for C6 at `N = 2` with a concrete mean chooser and noise
stream. -/
theorem gan_c6_witness :
    (∀ i < 2, cChoice i ∈ dataMus)
    ∧ ((dataSample cChoice cGauss 2).length = 2
      ∧ (dataSample cChoice cGauss 2).Sorted (· ≤ ·)
      ∧ (dataSample cChoice cGauss 2).Perm
          ((List.range 2).map (fun i => normalDraw cGauss (cChoice i) dataSigma i))
      ∧ ∀ y ∈ dataSample cChoice cGauss 2,
          ∃ i < 2, cChoice i ∈ dataMus ∧ y = cChoice i + dataSigma * cGauss i) :=
  ⟨by decide, gan_c6 cChoice cGauss 2 (by decide)⟩

/-- Claim C10: the restore assigns write only the `Disc` and `Gen`
trainable variables — all four Adam slot states are untouched — the
snapshots read only those variables, and after one extragradient
iteration the `opt_d` and `opt_g` step counters have advanced by two: the
trial step's effect on the optimizer state persists through the restore
into the corrected update. -/
theorem gan_c10 (sq : ℚ → ℚ) (gD : List ℚ → List ℚ → List ℚ → List ℚ → List ℚ)
    (gG : List ℚ → List ℚ → List ℚ → List ℚ)
    (st : TrainState) (wD wG x1 z1 x2 z2 : List ℚ) :
    (restoreParams st wD wG).aD = st.aD
    ∧ (restoreParams st wD wG).aG = st.aG
    ∧ (restoreParams st wD wG).aDm = st.aDm
    ∧ (restoreParams st wD wG).aGm = st.aGm
    ∧ snapshotD st = st.dParams
    ∧ snapshotG st = st.gParams
    ∧ (egStep sq gD gG st x1 z1 x2 z2).aD.t = st.aD.t + 2
    ∧ (egStep sq gD gG st x1 z1 x2 z2).aG.t = st.aG.t + 2 := by
  refine ⟨rfl, rfl, rfl, rfl, rfl, rfl, ?_, ?_⟩ <;>
    simp [egStep, apply_gradients, applyWith, adamAdv, adamUpdate, restoreParams]

/-- Claim C4: one iteration of the standard loop is exactly the combined
discriminator minimize on the sampled real and noise batch followed by
the combined generator minimize on a fresh noise batch; each phase runs
its optimizer exactly once (step counter advances by one) and leaves the
other scope's parameters and every other optimizer's slots unchanged, and
the run trace of the standard loop is, per step, sample-real,
sample-noise, discriminator update, sample-noise, generator update. -/
theorem gan_c4 (sq : ℚ → ℚ) (gD : List ℚ → List ℚ → List ℚ → List ℚ → List ℚ)
    (gG : List ℚ → List ℚ → List ℚ → List ℚ) (st st0 : TrainState)
    (xs zs zs2 : ℕ → List ℚ) (x z z2 : List ℚ) (n numSteps logEvery : ℕ) (anim : Bool) :
    stdLoop sq gD gG st0 xs zs zs2 (n + 1)
      = minimizeG sq gG (minimizeD sq gD (stdLoop sq gD gG st0 xs zs zs2 n) (xs n) (zs n)) (zs2 n)
    ∧ (minimizeD sq gD st x z).gParams = st.gParams
    ∧ (minimizeD sq gD st x z).aGm = st.aGm
    ∧ (minimizeD sq gD st x z).aG = st.aG
    ∧ (minimizeD sq gD st x z).aD = st.aD
    ∧ (minimizeD sq gD st x z).aDm.t = st.aDm.t + 1
    ∧ (minimizeG sq gG st z2).dParams = st.dParams
    ∧ (minimizeG sq gG st z2).aDm = st.aDm
    ∧ (minimizeG sq gG st z2).aD = st.aD
    ∧ (minimizeG sq gG st z2).aG = st.aG
    ∧ (minimizeG sq gG st z2).aGm.t = st.aGm.t + 1
    ∧ trainTrace false numSteps numPretrainSteps logEvery anim
        = Ev.copyPreToD ::
            ((List.range numSteps).map (fun s =>
              [Ev.sampleReal, Ev.sampleNoise, Ev.updD, Ev.sampleNoise, Ev.updG]
                ++ logFrameTrace s logEvery anim)).flatten := by
  refine ⟨rfl, rfl, rfl, rfl, rfl, ?_, rfl, rfl, rfl, rfl, ?_, ?_⟩
  · simp [minimizeD, adamAdv, adamUpdate]
  · simp [minimizeG, adamAdv, adamUpdate]
  · simp [trainTrace, numPretrainSteps, stepTrace, stdStepTrace]

/-- Claim C1 evaluated: at a concrete state and gradient oracle, the
extragradient iteration the code executes differs from the one the spec
describes (the final apply does NOT use the gradients fetched at the
trial point), and it equals instead a fresh `apply_gradients` whose
gradients are evaluated at the restored (original) parameters. -/
theorem gan_c1_code_eval :
    egStep cSq cGradD cGradG cSt [0] [0] [0] [0]
        ≠ egStepSpec cSq cGradD cGradG cSt [0] [0] [0] [0]
    ∧ egStep cSq cGradD cGradG cSt [0] [0] [0] [0]
        = applyWith cSq
            (restoreParams (apply_gradients cSq cGradD cGradG cSt [0] [0])
              (snapshotD cSt) (snapshotG cSt))
            (cGradD cSt.dParams cSt.gParams [0] [0])
            (cGradG cSt.dParams cSt.gParams [0]) := by
  constructor
  · norm_num [egStep, egStepSpec, apply_gradients, applyWith, adamAdv, adamUpdate,
      restoreParams, snapshotD, snapshotG, computeGradientsVals, copyByPos,
      cSq, cGradD, cGradG, cSt, adam0, advLr, advB1, advB2, advEps,
      List.range_succ, TrainState.mk.injEq, AdamState.mk.injEq]
  · norm_num [egStep, egStepSpec, apply_gradients, applyWith, adamAdv, adamUpdate,
      restoreParams, snapshotD, snapshotG, computeGradientsVals, copyByPos,
      cSq, cGradD, cGradG, cSt, adam0, advLr, advB1, advB2, advEps,
      List.range_succ, TrainState.mk.injEq, AdamState.mk.injEq]

lemma dbCurve_chunks (Disc : List ℚ → List ℚ) (xs : List ℚ) (bs n : ℕ)
    (hxs : xs.length = n) (hD : ∀ ch, (Disc ch).length = ch.length) :
    ∀ k, k ≤ n / bs →
      (List.range k).foldl (fun db i => setSlice db (bs * i) (Disc (chunk xs bs i)))
          (List.replicate n 0)
        = ((List.range k).map (fun i => Disc (chunk xs bs i))).flatten
            ++ List.replicate (n - bs * k) 0
      ∧ (((List.range k).map (fun i => Disc (chunk xs bs i))).flatten).length = bs * k := by
  intro k
  induction k with
  | zero => intro _; simp
  | succ j ih =>
    intro hk
    obtain ⟨ihEq, ihLen⟩ := ih (by omega)
    have hbn : bs * (j + 1) ≤ n := by
      calc bs * (j + 1) ≤ bs * (n / bs) := Nat.mul_le_mul_left bs hk
        _ ≤ n := Nat.mul_div_le n bs
    have hchunklen : (chunk xs bs j).length = bs := by
      unfold chunk
      rw [List.length_take, List.length_drop, hxs]
      rw [Nat.mul_succ] at hbn
      omega
    have hvlen : (Disc (chunk xs bs j)).length = bs := by rw [hD, hchunklen]
    have hsplit : ((List.range (j + 1)).map (fun i => Disc (chunk xs bs i))).flatten
        = ((List.range j).map (fun i => Disc (chunk xs bs i))).flatten
            ++ Disc (chunk xs bs j) := by
      rw [List.range_succ, List.map_append, List.flatten_append]
      simp
    constructor
    · rw [List.range_succ, List.foldl_append]
      simp only [List.foldl_cons, List.foldl_nil]
      rw [ihEq]
      unfold setSlice
      rw [List.take_left' ihLen, hvlen,
        show bs * j + bs
            = (((List.range j).map (fun i => Disc (chunk xs bs i))).flatten).length + bs
          from by rw [ihLen],
        List.drop_append, List.drop_replicate,
        show n - bs * j - bs = n - bs * (j + 1) from by rw [Nat.mul_succ, Nat.sub_sub],
        List.map_append, List.flatten_append]
      simp [List.append_assoc]
    · rw [hsplit, List.length_append, ihLen, hvlen, Nat.mul_succ]

/-- Claim C2 counterexample: on the 5-point grid with batch size 2 the
remainder grid point is NOT dropped from the returned curve — the result
is not the concatenation of the processed chunks alone (it keeps a
trailing zero entry, so its length stays 5, not 4). -/
theorem gan_c2_counterexample :
    ¬(dbCurve cDisc cXs 2 5
        = ((List.range (5 / 2)).map (fun i => cDisc (chunk cXs 2 i))).flatten) := by
  norm_num [dbCurve, cDisc, cXs, setSlice, chunk, List.range_succ]

/-- Claim C2 as amended: only the first `(n / bs) * bs` grid points are
passed through the discriminator — the curve is the concatenation of the
discriminator's outputs on the first `n / bs` full chunks — but the
remainder is not dropped from the result: the returned curve still has
`n` entries, the trailing `n mod bs` of which stay at their zero
initialization. -/
theorem gan_c2_amended (Disc : List ℚ → List ℚ) (xs : List ℚ) (bs n : ℕ)
    (hxs : xs.length = n) (hD : ∀ ch, (Disc ch).length = ch.length) :
    dbCurve Disc xs bs n
        = ((List.range (n / bs)).map (fun i => Disc (chunk xs bs i))).flatten
            ++ List.replicate (n - bs * (n / bs)) 0
    ∧ (dbCurve Disc xs bs n).length = n := by
  obtain ⟨hEq, hLen⟩ := dbCurve_chunks Disc xs bs n hxs hD (n / bs) le_rfl
  have hEq' : dbCurve Disc xs bs n
      = ((List.range (n / bs)).map (fun i => Disc (chunk xs bs i))).flatten
          ++ List.replicate (n - bs * (n / bs)) 0 := hEq
  refine ⟨hEq', ?_⟩
  rw [hEq', List.length_append, hLen, List.length_replicate]
  have := Nat.mul_div_le n bs
  omega

/-- Witness for the amended C2 at `n = 5`, `bs = 2`: the returned curve
is `[11, 21, 31, 41, 0]` — four discriminator scores and one zero filler. -/
theorem gan_c2_witness :
    cXs.length = 5 ∧ (∀ ch, (cDisc ch).length = ch.length)
    ∧ (dbCurve cDisc cXs 2 5
        = ((List.range (5 / 2)).map (fun i => cDisc (chunk cXs 2 i))).flatten
            ++ List.replicate (5 - 2 * (5 / 2)) 0
      ∧ (dbCurve cDisc cXs 2 5).length = 5) :=
  ⟨by decide, fun ch => by simp [cDisc],
    gan_c2_amended cDisc cXs 2 5 (by decide) (fun ch => by simp [cDisc])⟩

lemma l1dist_self (u : List ℚ) : l1dist u u = 0 := by
  simp [l1dist, List.zipWith_same, sub_self, abs_zero, List.map_const', List.sum_replicate]

lemma closeness_self (ex : ℚ → ℚ) (Dk : ℕ) (y : List ℚ) (k : ℕ) :
    closeness ex Dk y y k = ex 0 := by
  unfold closeness
  rw [l1dist_self, neg_zero]

lemma mbFeatRow_length (ex : ℚ → ℚ) (K Dk : ℕ) (yi : List ℚ) (acts : List (List ℚ)) :
    (mbFeatRow ex K Dk yi acts).length = K := by
  simp [mbFeatRow]

lemma mbFeatRow_perm (ex : ℚ → ℚ) (K Dk : ℕ) (yi : List ℚ) {a1 a2 : List (List ℚ)}
    (h : a1.Perm a2) : mbFeatRow ex K Dk yi a1 = mbFeatRow ex K Dk yi a2 := by
  unfold mbFeatRow
  refine List.map_congr_left (fun k _ => ?_)
  exact (h.map (fun yj => closeness ex Dk yi yj k)).sum_eq

/-- Claim C5: for every batch and kernel configuration `(K, Dk)`, the
minibatch layer's output rows have width `input_dim + K`; the layer is
equivariant under permuting the batch (its whole output is the
corresponding permutation, because each example's added features sum the
closeness scores over the whole batch, a permutation-invariant
quantity); the sum includes the self-comparison term, so for a
singleton batch each kernel's closeness feature is
`exp(-0) = 1` (stated for any `exp` oracle with `ex 0 = 1`). -/
theorem gan_c5 (ex : ℚ → ℚ) (w : List (List ℚ)) (bias : List ℚ) (K Dk idim : ℕ)
    (batch batch2 : List (List ℚ)) (hlen : ∀ r ∈ batch, r.length = idim)
    (hex : ex 0 = 1) (hperm : batch.Perm batch2) :
    (∀ r ∈ minibatchLayer ex w bias K Dk batch, r.length = idim + K)
    ∧ (minibatchLayer ex w bias K Dk batch).Perm (minibatchLayer ex w bias K Dk batch2)
    ∧ ∀ row : List ℚ,
        minibatchLayer ex w bias K Dk [row] = [row ++ List.replicate K 1] := by
  refine ⟨?_, ?_, ?_⟩
  · intro r hr
    unfold minibatchLayer at hr
    rw [List.mem_map] at hr
    obtain ⟨row, hrow, rfl⟩ := hr
    rw [List.length_append, mbFeatRow_length, hlen row hrow]
  · have hF : ∀ row : List ℚ,
        row ++ mbFeatRow ex K Dk (linearRow w bias row) (batch.map (linearRow w bias))
          = row ++ mbFeatRow ex K Dk (linearRow w bias row) (batch2.map (linearRow w bias)) := by
      intro row
      rw [mbFeatRow_perm ex K Dk _ (hperm.map (linearRow w bias))]
    unfold minibatchLayer
    rw [List.map_congr_left (fun r _ => hF r)]
    exact hperm.map _
  · intro row
    unfold minibatchLayer mbFeatRow
    simp [closeness_self, hex, List.map_const', List.length_range]

/-- Witness for C5: a concrete two-example batch, its reversal, and a
concrete `exp` stand-in with `cEx 0 = 1`, at `K = 2`, `Dk = 1`,
`input_dim = 1`. -/
theorem gan_c5_witness :
    (∀ r ∈ cBatch, r.length = 1) ∧ cEx 0 = 1 ∧ cBatch.Perm cBatch2
    ∧ ((∀ r ∈ minibatchLayer cEx cW cBias 2 1 cBatch, r.length = 1 + 2)
      ∧ (minibatchLayer cEx cW cBias 2 1 cBatch).Perm (minibatchLayer cEx cW cBias 2 1 cBatch2)
      ∧ ∀ row : List ℚ,
          minibatchLayer cEx cW cBias 2 1 [row] = [row ++ List.replicate 2 1]) :=
  ⟨by decide, by norm_num [cEx], List.Perm.swap [5] [2] [],
    gan_c5 cEx cW cBias 2 1 1 cBatch cBatch2 (by decide) (by norm_num [cEx])
      (List.Perm.swap [5] [2] [])⟩

lemma filter_logFrame (s l : ℕ) (a : Bool) :
    (logFrameTrace s l a).filter mutatesD = [] := by
  simp only [logFrameTrace, List.filter_append, apply_ite (List.filter mutatesD)]
  simp [mutatesD]

lemma filter_step (eg : Bool) (s l : ℕ) (a : Bool) :
    (stepTrace eg s l a).filter mutatesD
      = if eg then [Ev.updD, Ev.restoreD, Ev.updD] else [Ev.updD] := by
  cases eg <;>
    simp [stepTrace, stdStepTrace, egStepTrace, List.filter_append, filter_logFrame, mutatesD]

lemma filter_steps (eg : Bool) (n l : ℕ) (a : Bool) :
    (((List.range n).map (fun s => stepTrace eg s l a)).flatten).filter mutatesD
      = (List.replicate n (if eg then [Ev.updD, Ev.restoreD, Ev.updD] else [Ev.updD])).flatten := by
  induction n with
  | zero => rfl
  | succ k ih =>
    rw [List.range_succ, List.map_append, List.flatten_append, List.filter_append, ih,
      List.replicate_succ', List.flatten_append]
    simp [filter_step]

/-- Claim C8: over any whole `GAN.train` trace — either loop, any number
of steps — the sequence of events that write the `Disc` trainable
variables starts with the pretrain-weight copy, contains that copy
exactly once (it is never repeated later), and every other `Disc` write
is either a discriminator-optimizer apply or a snapshot restore. -/
theorem gan_c8 (eg : Bool) (numSteps numPretrain logEvery : ℕ) (anim : Bool) :
    ∃ rest, (trainTrace eg numSteps numPretrain logEvery anim).filter mutatesD
        = Ev.copyPreToD :: rest
      ∧ Ev.copyPreToD ∉ rest
      ∧ ∀ e ∈ rest, e = Ev.updD ∨ e = Ev.restoreD := by
  refine ⟨(List.replicate numSteps
      (if eg then [Ev.updD, Ev.restoreD, Ev.updD] else [Ev.updD])).flatten, ?_, ?_, ?_⟩
  · unfold trainTrace
    rw [List.filter_append, List.filter_replicate, if_neg (by simp [mutatesD]),
      List.nil_append, List.filter_cons_of_pos (by simp [mutatesD]), filter_steps]
  · intro hmem
    rw [List.mem_flatten] at hmem
    obtain ⟨tr, htr, hin⟩ := hmem
    have h := List.eq_of_mem_replicate htr
    subst h
    cases eg <;> simp at hin
  · intro e he
    rw [List.mem_flatten] at he
    obtain ⟨tr, htr, hin⟩ := he
    have h := List.eq_of_mem_replicate htr
    subst h
    cases eg <;> simp at hin
    · exact Or.inl hin
    · rcases hin with h | h | h
      · exact Or.inl h
      · exact Or.inr h
      · exact Or.inl h

lemma pretrain_not_mem_step (eg : Bool) (s l : ℕ) (a : Bool) :
    Ev.pretrainUpd ∉ stepTrace eg s l a := by
  cases eg <;> cases a <;> cases hb : s % l == 0 <;>
    simp [stepTrace, stdStepTrace, egStepTrace, logFrameTrace, hb]

/-- Claim C9: the pretraining step count is hard-coded to zero, so the
run trace contains no pretraining update at all, yet its very first
event is still the pretrain-to-Disc weight copy — before any adversarial
training step — and the copy overwrites the discriminator scope with the
(untrained, still initial) pretrain-scope values position by position. -/
theorem gan_c9 (eg : Bool) (n l : ℕ) (a : Bool) (st : TrainState)
    (h : st.dParams.length = st.preParams.length) :
    numPretrainSteps = 0
    ∧ Ev.pretrainUpd ∉ trainTraceRun eg n l a
    ∧ (trainTraceRun eg n l a).head? = some Ev.copyPreToD
    ∧ (initCopy st).dParams = st.preParams := by
  refine ⟨rfl, ?_, rfl, ?_⟩
  · intro hmem
    unfold trainTraceRun trainTrace numPretrainSteps at hmem
    rw [List.replicate_zero, List.nil_append] at hmem
    rcases List.mem_cons.mp hmem with h1 | h1
    · exact absurd h1 (by simp)
    · rw [List.mem_flatten] at h1
      obtain ⟨tr, htr, hin⟩ := h1
      rw [List.mem_map] at htr
      obtain ⟨s, _, rfl⟩ := htr
      exact pretrain_not_mem_step eg s l a hin
  · unfold initCopy
    rw [copyByPos_eq st.dParams st.preParams h]

/-- Witness for C9 at a concrete state whose pretrain and discriminator
scopes each hold two parameters, with one extragradient-free step. -/
theorem gan_c9_witness :
    c9St.dParams.length = c9St.preParams.length
    ∧ (numPretrainSteps = 0
      ∧ Ev.pretrainUpd ∉ trainTraceRun false 1 1 false
      ∧ (trainTraceRun false 1 1 false).head? = some Ev.copyPreToD
      ∧ (initCopy c9St).dParams = c9St.preParams) :=
  ⟨by decide, gan_c9 false 1 1 false c9St (by decide)⟩
